import Mathlib

/-!
Verification of the GoToSocial asynchronous activity-processing engine
against its natural-language specification.

The Lean definitions below are shallow embeddings of the Go source:

* `Paging` — internal/paging (boundary.go, order.go, response.go)
* `GtsCache` — internal/cache (the basic `Cache`, `AccountCache`,
  `NotificationCache`, `CachedMute`)
* `Mutes` — internal/filter/mutes (Filter.StatusMuted)
* `Concurrency` — internal/concurrency/workers.go (WorkerPool)
* `Workers` — internal/processing/workers/fromfediapi.go (the fedi API
  dispatcher and its handlers, modelled as effect traces over oracles that
  stand for the outcomes of storage / federation collaborator calls)

Machine integers are modelled as `Int`/`Nat`; Go's `time.Time` is a `Nat`
instant whose zero value (`IsZero`) is `0`; fallible Go calls return
`Except`/`Option`; Go `panic` is an `Except.error`.
-/

namespace Paging

/-- Go: `type Order int` with constants `0`, `OrderAscending`,
`OrderDescending` (internal/paging/order.go). -/
inductive Order : Type
| zero
| ascending
| descending
deriving DecidableEq

/-- Go: `func (i Order) Ascending() bool { return i == OrderAscending }`. -/
def Order.Ascending : Order → Bool
| Order.ascending => true
| _ => false

/-- Go: `func (i Order) Descending() bool { return i == OrderDescending }`. -/
def Order.Descending : Order → Bool
| Order.descending => true
| _ => false

/-- Go: `func (i Order) None() bool { return i == 0 }`. -/
def Order.IsNone : Order → Bool
| Order.zero => true
| _ => false

/-- The zero value of a Go comparable type parameter `T`
(e.g. `""` for `string`, `0` for integers). -/
class Zeroed (T : Type) where
  zeroVal : T

instance : Zeroed String := ⟨""⟩

instance : Zeroed Nat := ⟨0⟩

instance : Zeroed Int := ⟨0⟩

/-- Modelled from the spec: the paging package's unexported `zero[T
comparable](t T) bool` helper is not among the provided source files (only
its callers in boundary.go and response.go are).  Per the spec's invariant
"a boundary value of unset/zero means no bound on that side" and the usage
`var zero T; min != zero` visible in the bundb paging helper, it reports
whether `t` equals the zero value of `T`. -/
def zero {T : Type} [DecidableEq T] [Zeroed T] (t : T) : Bool :=
  t = Zeroed.zeroVal

/-- Go: `type Boundary[T comparable] struct { Name string; Value T; Order
Order }` (internal/paging/boundary.go). -/
structure Boundary (T : Type) where
  Name : String
  Value : T
  Order : Paging.Order
deriving DecidableEq

/-- The zero value of `Boundary[T]` (what Go's `new(Page[T])` leaves in the
`Min` / `Max` fields). -/
def Boundary.zeroed (T : Type) [Zeroed T] : Boundary T :=
  { Name := "", Value := Zeroed.zeroVal, Order := Order.zero }

/-- Go: `func (b Boundary[T]) New(value T) Boundary[T]` — same name and
order, new value. -/
def Boundary.New {T : Type} (b : Boundary T) (value : T) : Boundary T :=
  { Name := b.Name, Value := value, Order := b.Order }

/-- Go: `func (b Boundary[T]) Find(in []T) int` — returns the index of the
first exact match of `b.Value` in `in`, or `-1` when the value is the zero
value or not present.  The `-1` sentinel is rendered as `none` here. -/
def Boundary.Find {T : Type} [DecidableEq T] [Zeroed T]
    (b : Boundary T) (xs : List T) : Option Nat :=
  if zero b.Value then none
  else xs.findIdx? (fun x => x = b.Value)

/-- Go: `type Page[T comparable] struct { Min, Max Boundary[T]; Limit int }`
(internal/paging/response.go). -/
structure Page (T : Type) where
  Min : Boundary T
  Max : Boundary T
  Limit : Int
deriving DecidableEq

/-- Go: `func (p *Page[T]) order() Order` — minimum boundary order has the
highest priority. -/
def Page.order {T : Type} (p : Page T) : Order :=
  if p.Min.Order ≠ Order.zero then p.Min.Order
  else if p.Max.Order ≠ Order.zero then p.Max.Order
  else Order.zero

/-- The in-place reversal loop shared by `PageAsc` / `PageDesc` (clone, then
swap front/back until the indices meet): it reverses the slice. -/
def reverseLoop {T : Type} (xs : List T) : List T :=
  xs.reverse

/-- Go: `func (p *Page[T]) PageAsc(in []T) []T` for a non-nil receiver
(internal/paging/response.go lines 196-248).  Reslice after the minimum
boundary, up to the maximum boundary, reverse when the page order is
descending, then truncate to `Limit` when `0 < Limit < len(in)`. -/
def Page.PageAsc {T : Type} [DecidableEq T] [Zeroed T]
    (p : Page T) (xs : List T) : List T :=
  let xs1 := match p.Min.Find xs with
    | some minIdx => xs.drop (minIdx + 1)
    | none => xs
  let xs2 := match p.Max.Find xs1 with
    | some maxIdx => xs1.take maxIdx
    | none => xs1
  let xs3 := if p.order.Descending ∧ 1 < xs2.length then reverseLoop xs2 else xs2
  if 0 < p.Limit ∧ p.Limit < (xs3.length : Int) then xs3.take p.Limit.toNat else xs3

/-- Go: `func (p *Page[T]) PageDesc(in []T) []T` for a non-nil receiver
(internal/paging/response.go lines 254-306).  Reslice after the maximum
boundary, up to the minimum boundary, reverse when the page order is
ascending, then truncate to `Limit` when `0 < Limit < len(in)`. -/
def Page.PageDesc {T : Type} [DecidableEq T] [Zeroed T]
    (p : Page T) (xs : List T) : List T :=
  let xs1 := match p.Max.Find xs with
    | some maxIdx => xs.drop (maxIdx + 1)
    | none => xs
  let xs2 := match p.Min.Find xs1 with
    | some minIdx => xs1.take minIdx
    | none => xs1
  let xs3 := if p.order.Ascending ∧ 1 < xs2.length then reverseLoop xs2 else xs2
  if 0 < p.Limit ∧ p.Limit < (xs3.length : Int) then xs3.take p.Limit.toNat else xs3

/-- Go: `func (p *Page[T]) Next(max T) *Page[T]` (internal/paging/response.go
lines 310-326).  Returns `nil` (here `none`) for a nil receiver or a zero
candidate boundary value; otherwise a fresh zero-valued page carrying the
original limit and `p.Max.New(max)`. -/
def Page.Next {T : Type} [DecidableEq T] [Zeroed T]
    (p : Option (Page T)) (max : T) : Option (Page T) :=
  match p with
  | none => none
  | some p =>
    if zero max then none
    else some { Min := Boundary.zeroed T, Max := p.Max.New max, Limit := p.Limit }

/-- Go: `func (p *Page[T]) Prev(min T) *Page[T]` (internal/paging/response.go
lines 330-346).  Returns `nil` (here `none`) for a nil receiver or a zero
candidate boundary value; otherwise a fresh zero-valued page carrying the
original limit and `p.Min.New(min)`. -/
def Page.Prev {T : Type} [DecidableEq T] [Zeroed T]
    (p : Option (Page T)) (min : T) : Option (Page T) :=
  match p with
  | none => none
  | some p =>
    if zero min then none
    else some { Min := p.Min.New min, Max := Boundary.zeroed T, Limit := p.Limit }

/-- The paging round-trip loop of spec §8.2, with the continuation page
derived via `Next` applied to the last element of each returned page: page
the full input, stop on an empty page (or a `nil` continuation page),
otherwise emit the page and continue from `Next(last)`.  `fuel` bounds the
number of iterations so the loop is total. -/
def enumNext {T : Type} [DecidableEq T] [Zeroed T]
    (fuel : Nat) (p : Option (Page T)) (xs : List T) : List T :=
  match fuel with
  | 0 => []
  | fuel + 1 =>
    match p with
    | none => []
    | some p =>
      let r := p.PageAsc xs
      match r.getLast? with
      | none => []
      | some last => r ++ enumNext fuel (Page.Next (some p) last) xs

/-- The corrected paging round-trip loop: identical to `enumNext` but the
continuation page is derived via `Prev` applied to the last element of each
returned page. -/
def enumPrev {T : Type} [DecidableEq T] [Zeroed T]
    (fuel : Nat) (p : Option (Page T)) (xs : List T) : List T :=
  match fuel with
  | 0 => []
  | fuel + 1 =>
    match p with
    | none => []
    | some p =>
      let r := p.PageAsc xs
      match r.getLast? with
      | none => []
      | some last => r ++ enumPrev fuel (Page.Prev (some p) last) xs

/-- A `Page` with limit `L` and no boundaries (both boundaries zero-valued),
the starting page of the spec §8.2 round-trip. -/
def noBoundaryPage (T : Type) [Zeroed T] (L : Int) : Page T :=
  { Min := Boundary.zeroed T, Max := Boundary.zeroed T, Limit := L }

/-- Spec-side truncation: "truncated to at most Limit elements when Limit is
positive". -/
def truncSpec {T : Type} (L : Int) (xs : List T) : List T :=
  if 0 < L then xs.take L.toNat else xs

/-- Spec-side conditional reversal: "reversed when the page's requested order
disagrees with the input's natural order". -/
def reverseIfSpec {T : Type} (b : Bool) (xs : List T) : List T :=
  if b then xs.reverse else xs

/-- Spec-side boundary window: the elements strictly between the minimum and
maximum boundary values (boundaries exclusive), where a zero boundary value
imposes no bound on that side. -/
def betweenSpec {T : Type} [LinearOrder T] [Zeroed T]
    (minV maxV : T) (xs : List T) : List T :=
  xs.filter (fun x =>
    (zero minV || decide (minV < x)) && (zero maxV || decide (x < maxV)))

/-- Spec-side restatement of `PageAsc` built from the claim's words
(window, reverse when order is descending, truncate). -/
def pageAscSpec {T : Type} [LinearOrder T] [Zeroed T]
    (p : Page T) (xs : List T) : List T :=
  truncSpec p.Limit (reverseIfSpec p.order.Descending (betweenSpec p.Min.Value p.Max.Value xs))

/-- Spec-side restatement of `PageDesc` built from the claim's words
(window, reverse when order is ascending, truncate). -/
def pageDescSpec {T : Type} [LinearOrder T] [Zeroed T]
    (p : Page T) (xs : List T) : List T :=
  truncSpec p.Limit (reverseIfSpec p.order.Ascending (betweenSpec p.Min.Value p.Max.Value xs))

end Paging

namespace GtsCache

/-- Go map read (`m[k]`), modelled on an association list with unique keys. -/
def alGet {β : Type} (m : List (String × β)) (k : String) : Option β :=
  match m with
  | [] => none
  | (k1, v) :: rest => if k1 = k then some v else alGet rest k

/-- Go map write (`m[k] = v`): overwrite the existing binding or append. -/
def alSet {β : Type} (m : List (String × β)) (k : String) (v : β) : List (String × β) :=
  match m with
  | [] => [(k, v)]
  | (k1, v1) :: rest => if k1 = k then (k, v) :: rest else (k1, v1) :: alSet rest k v

/-- Go map delete (`delete(m, k)`). -/
def alDel {β : Type} (m : List (String × β)) (k : String) : List (String × β) :=
  match m with
  | [] => []
  | (k1, v1) :: rest => if k1 = k then rest else (k1, v1) :: alDel rest k

/-- Go: `type entry struct { value interface{}; expiry time.Time }`
(internal/cache/status.go).  Instants are `Nat`s. -/
structure Entry (V : Type) where
  value : V
  expiry : Nat
deriving DecidableEq

/-- Go: `type Cache struct { cache map[string]*entry; ttl time.Duration; ... }`
(internal/cache/status.go).  The evict/update hooks are inlined at the one
call site that installs non-trivial ones (`AccountCache`); the mutex
disappears in this sequential model. -/
structure Cache (V : Type) where
  cache : List (String × Entry V)
  ttl : Nat
deriving DecidableEq

/-- Go: `func (c *Cache) get(key string)` — look the entry up and extend its
TTL from the current clock; the entry's stored value is untouched. -/
def Cache.get {V : Type} (c : Cache V) (now : Nat) (key : String) :
    Option V × Cache V :=
  match alGet c.cache key with
  | none => (none, c)
  | some item =>
    (some item.value,
     { c with cache := alSet c.cache key { value := item.value, expiry := now + c.ttl } })

/-- Go: `type Account struct { ... }` (gtsmodel), restricted to the fields
the cache layer reads or severs.  `AvatarMediaAttachment` /
`HeaderMediaAttachment` are Go pointers into other cache entries' object
graphs, modelled as optional reference identifiers; `rest` stands for the
remaining surface-copied primitive fields. -/
structure Account where
  ID : String
  URI : String
  URL : String
  AvatarMediaAttachment : Option Nat
  HeaderMediaAttachment : Option Nat
  rest : String
deriving DecidableEq

/-- Go: `func copyAccount(account *gtsmodel.Account) *gtsmodel.Account` —
surface copy with the pointer-like associations nulled out
(src/unnamed/part_007 lines 161-166). -/
def copyAccount (account : Account) : Account :=
  { account with AvatarMediaAttachment := none, HeaderMediaAttachment := none }

/-- Go: `type AccountCache struct { cache Cache; urls, uris map[string]string }`
(src/unnamed/part_007). -/
structure AccountCache where
  cache : Cache Account
  urls : List (String × String)
  uris : List (String × String)
deriving DecidableEq

/-- Go: `c.cache.set(key, value)` as performed on an `AccountCache`: the
overwrite path runs the update hook installed by `SetUpdateCallback`, which
re-points the `uris` / `urls` lookup maps when the URI / URL changed
(src/unnamed/part_007 lines 49-85); the insert path allocates a new entry.
Either way the entry's value and expiry are then set. -/
def AccountCache.cacheSet (c : AccountCache) (now : Nat) (key : String)
    (value : Account) : AccountCache :=
  let entry : Entry Account := { value := value, expiry := now + c.cache.ttl }
  match alGet c.cache.cache key with
  | some item =>
    let oldAcc := item.value
    let uris :=
      if oldAcc.URI ≠ value.URI then alSet (alDel c.uris oldAcc.URI) value.URI value.ID
      else c.uris
    let urls :=
      if oldAcc.URL ≠ value.URL then
        let urls1 := if oldAcc.URL ≠ "" then alDel c.urls oldAcc.URL else c.urls
        if value.URL ≠ "" then alSet urls1 value.URL value.ID else urls1
      else c.urls
    { cache := { c.cache with cache := alSet c.cache.cache key entry },
      uris := uris, urls := urls }
  | none =>
    { c with cache := { c.cache with cache := alSet c.cache.cache key entry } }

/-- Go: `func (c *AccountCache) getByID(id string)` — unexported lookup
returning a defensive copy of the cached account (src/unnamed/part_007
lines 132-138).  `Cache.get` extends the entry's TTL, so the (possibly
updated) cache state is returned alongside. -/
def AccountCache.getByID (c : AccountCache) (now : Nat) (id : String) :
    Option Account × AccountCache :=
  match c.cache.get now id with
  | (none, cc) => (none, { c with cache := cc })
  | (some v, cc) => (some (copyAccount v), { c with cache := cc })

/-- Go: `func (c *AccountCache) GetByID(id string)` (mutex dropped in this
sequential model). -/
def AccountCache.GetByID (c : AccountCache) (now : Nat) (id : String) :
    Option Account × AccountCache :=
  c.getByID now id

/-- Go: `func (c *AccountCache) GetByURL(url string)` — URL-to-ID lookup
followed by `getByID`. -/
def AccountCache.GetByURL (c : AccountCache) (now : Nat) (url : String) :
    Option Account × AccountCache :=
  match alGet c.urls url with
  | none => (none, c)
  | some id => c.getByID now id

/-- Go: `func (c *AccountCache) GetByURI(uri string)` — URI-to-ID lookup
followed by `getByID`. -/
def AccountCache.GetByURI (c : AccountCache) (now : Nat) (uri : String) :
    Option Account × AccountCache :=
  match alGet c.uris uri with
  | none => (none, c)
  | some id => c.getByID now id

/-- Go: `func (c *AccountCache) Set(account *gtsmodel.Account)`
(src/unnamed/part_007 lines 141-156).  A nil account or one with an empty ID
or URI panics (`Except.error`); otherwise a defensive copy is stored and the
secondary lookup maps are updated. -/
def AccountCache.Set (c : AccountCache) (now : Nat) (account : Option Account) :
    Except String AccountCache :=
  match account with
  | none => Except.error "invalid account"
  | some account =>
    if account.ID = "" ∨ account.URI = "" then Except.error "invalid account"
    else
      let c1 := c.cacheSet now account.ID (copyAccount account)
      let c2 := { c1 with uris := alSet c1.uris account.URI account.ID }
      let c3 :=
        if account.URL ≠ "" then { c2 with urls := alSet c2.urls account.URL account.ID }
        else c2
      Except.ok c3

/-- Go: `type Notification struct { ... }` (gtsmodel), restricted to the
fields the cache layer reads or severs. -/
structure Notification where
  ID : String
  Status : Option Nat
  OriginAccount : Option Nat
  TargetAccount : Option Nat
  rest : String
deriving DecidableEq

/-- Go: `func copyNotification(mention *gtsmodel.Notification)` — surface
copy with the pointer-like associations nulled out (src/unnamed/part_007
lines 210-216). -/
def copyNotification (mention : Notification) : Notification :=
  { mention with Status := none, OriginAccount := none, TargetAccount := none }

/-- Go: `type NotificationCache struct { cache cache.Cache }`
(src/unnamed/part_007).  The embedded go-cache store is modelled as the
key-to-value map it maintains. -/
structure NotificationCache where
  cache : List (String × Notification)
deriving DecidableEq

/-- Go: `func (c *NotificationCache) GetByID(id string)` — returns a
defensive copy. -/
def NotificationCache.GetByID (c : NotificationCache) (id : String) :
    Option Notification :=
  match alGet c.cache id with
  | none => none
  | some v => some (copyNotification v)

/-- Go: `func (c *NotificationCache) Put(notif *gtsmodel.Notification)`
(src/unnamed/part_007 lines 200-205).  A nil notification or one with an
empty ID panics (`Except.error`); otherwise a defensive copy is stored. -/
def NotificationCache.Put (c : NotificationCache) (notif : Option Notification) :
    Except String NotificationCache :=
  match notif with
  | none => Except.error "invalid notification"
  | some notif =>
    if notif.ID = "" then Except.error "invalid notification"
    else Except.ok { cache := alSet c.cache notif.ID (copyNotification notif) }

/-- Go: `type CachedMute struct { ... }` (src/unnamed/part_006 lines 60-86).
`time.Time` instants are `Nat`s whose `IsZero` is `= 0`. -/
structure CachedMute where
  ItemID : String
  RequesterID : String
  Mute : Bool
  MuteExpiry : Nat
  Notifications : Bool
  NotificationExpiry : Nat
deriving DecidableEq

/-- Go: `func (m *CachedMute) MuteExpired(now time.Time) bool { return
!m.MuteExpiry.IsZero() && !m.MuteExpiry.After(now) }` (src/unnamed/part_006
lines 89-91). -/
def CachedMute.MuteExpired (m : CachedMute) (now : Nat) : Bool :=
  !(m.MuteExpiry == 0) && !(decide (now < m.MuteExpiry))

end GtsCache

namespace Mutes

open GtsCache

/-- Go: `func (f *Filter) StatusMuted(ctx, requester, status)`
(src/unnamed/part_002 lines 34-54).  The call to `getStatusMuteDetails`
(cache `LoadOne` plus `time.Now()`) is abstracted as the `load` argument
carrying either an error or the cached mute details and the current time:
the decision logic on the details is translated verbatim. -/
def Filter.StatusMuted (load : Except String (CachedMute × Nat)) :
    Except String (Bool × Bool) :=
  match load with
  | Except.error e => Except.error ("error getting status mute details: " ++ e)
  | Except.ok (details, now) =>
    if !details.Mute then Except.ok (false, false)
    else if details.MuteExpiry == 0 then Except.ok (true, false)
    else Except.ok (decide (now < details.MuteExpiry), true)

end Mutes

namespace Concurrency

/-- Go: the closure built by `WorkerPool.Queue` and handed to
`w.workers.Enqueue` (internal/concurrency/workers.go lines 119-123):
`func(ctx) { if err := w.process(ctx, msg); err != nil { log.Errorf(...) } }`.
The first component is what the closure propagates back to the worker pool
(its Go type `func(context.Context)` has no error channel, so the
translation always ends in `Except.ok ()`); the second component is the log
output. -/
def WorkerPool.queuedFn {Ctx Msg E : Type}
    (process : Ctx → Msg → Option E) (msg : Msg) (ctx : Ctx) :
    Except E Unit × List E :=
  match process ctx msg with
  | some err => (Except.ok (), [err])
  | none => (Except.ok (), [])

/-- A single worker draining a queue of messages in FIFO order, running each
queued closure in turn.  If a closure propagated an error the worker would
stop and drop the remaining messages; the returned pair is (messages
actually processed, accumulated log output). -/
def WorkerPool.drain {Ctx Msg E : Type}
    (process : Ctx → Msg → Option E) (ctx : Ctx) :
    List Msg → List Msg × List E
  | [] => ([], [])
  | msg :: rest =>
    match WorkerPool.queuedFn process msg ctx with
    | (Except.error _, logs) => ([], logs)
    | (Except.ok _, logs) =>
      let r := WorkerPool.drain process ctx rest
      (msg :: r.1, logs ++ r.2)

end Concurrency

namespace Workers

/-- Go: the ActivityStreams activity/object type tags compared by the
dispatcher (`ap.ActivityCreate`, `ap.ObjectNote`, ...).  They are distinct
string constants in the `ap` package; `other s` stands for any tag the
dispatch switch does not name. -/
inductive APType : Type
| create
| update
| accept
| delete
| move
| follow
| like
| announce
| block
| flag
| question
| note
| person
| other (s : String)
deriving DecidableEq

/-- The sixteen handler methods reachable from `ProcessFromFediAPI`
(internal/processing/workers/fromfediapi.go lines 75-168). -/
inductive Handler : Type
| createStatus
| createFollowReq
| createLike
| createAnnounce
| createBlock
| createFlag
| createPollVote
| updateStatus
| updateAccount
| acceptFollow
| acceptLike
| acceptReply
| acceptAnnounce
| deleteStatus
| deleteAccount
| moveAccount
deriving DecidableEq

/-- Go: `func (p *Processor) ProcessFromFediAPI(ctx, fMsg)` routing
(internal/processing/workers/fromfediapi.go lines 75-168): the nested switch
on `(fMsg.APActivityType, fMsg.APObjectType)` selects a handler; any other
combination falls through to `gtserror.Newf("unhandled: %s %s", ...)`, whose
payload here carries both tags. -/
def ProcessFromFediAPI (activityType objectType : APType) :
    Except (APType × APType) Handler :=
  match activityType, objectType with
  | APType.create, APType.note => Except.ok Handler.createStatus
  | APType.create, APType.follow => Except.ok Handler.createFollowReq
  | APType.create, APType.like => Except.ok Handler.createLike
  | APType.create, APType.announce => Except.ok Handler.createAnnounce
  | APType.create, APType.block => Except.ok Handler.createBlock
  | APType.create, APType.flag => Except.ok Handler.createFlag
  | APType.create, APType.question => Except.ok Handler.createPollVote
  | APType.update, APType.note => Except.ok Handler.updateStatus
  | APType.update, APType.person => Except.ok Handler.updateAccount
  | APType.accept, APType.follow => Except.ok Handler.acceptFollow
  | APType.accept, APType.like => Except.ok Handler.acceptLike
  | APType.accept, APType.note => Except.ok Handler.acceptReply
  | APType.accept, APType.announce => Except.ok Handler.acceptAnnounce
  | APType.delete, APType.note => Except.ok Handler.deleteStatus
  | APType.delete, APType.person => Except.ok Handler.deleteAccount
  | APType.move, APType.person => Except.ok Handler.moveAccount
  | a, o => Except.error (a, o)

/-- The dispatch table as the spec describes it: the registered
(activity-type, object-type, handler) triples. -/
def handlerTable : List (APType × APType × Handler) :=
  [(APType.create, APType.note, Handler.createStatus),
   (APType.create, APType.follow, Handler.createFollowReq),
   (APType.create, APType.like, Handler.createLike),
   (APType.create, APType.announce, Handler.createAnnounce),
   (APType.create, APType.block, Handler.createBlock),
   (APType.create, APType.flag, Handler.createFlag),
   (APType.create, APType.question, Handler.createPollVote),
   (APType.update, APType.note, Handler.updateStatus),
   (APType.update, APType.person, Handler.updateAccount),
   (APType.accept, APType.follow, Handler.acceptFollow),
   (APType.accept, APType.like, Handler.acceptLike),
   (APType.accept, APType.note, Handler.acceptReply),
   (APType.accept, APType.announce, Handler.acceptAnnounce),
   (APType.delete, APType.note, Handler.deleteStatus),
   (APType.delete, APType.person, Handler.deleteAccount),
   (APType.move, APType.person, Handler.moveAccount)]

/-- Go: `util.PtrOrValue(ptr, def)` — dereference the pointer when non-nil,
otherwise the default. -/
def PtrOrValue (ptr : Option Bool) (d : Bool) : Bool :=
  match ptr with
  | some b => b
  | none => d

/-- The `gtsmodel.Status` fields `CreateStatus` branches on. -/
structure Status where
  PendingApproval : Option Bool
  PreApproved : Bool
  InReplyToID : String
  BoostOfID : String
deriving DecidableEq

/-- The `gtsmodel.StatusFave` fields `CreateLike` branches on. -/
structure StatusFave where
  PendingApproval : Option Bool
  PreApproved : Bool
  StatusID : String
deriving DecidableEq

/-- The side-effecting collaborator calls a handler can make, recorded in
program order.  An effect is recorded when the call is attempted, whether or
not the oracle makes it fail. -/
inductive Eff : Type
| resolveStatus
| notifyPendingReply
| approveReply
| acceptInteraction
| incrementStatusesCount
| invalidateStatusFromTimelines (id : String)
| timelineAndNotifyStatus
| populateStatusFave
| notifyPendingFave
| approveFave
| notifyFave
| enrichAnnounce
| notifyPendingAnnounce
| approveAnnounce
| notifyAnnounce
| wipeHomeTimeline (ownerID removeID : String)
| wipeListTimeline (ownerID removeID : String)
| deleteFollow (srcID dstID : String)
| deleteFollowRequest (srcID dstID : String)
deriving DecidableEq

/-- A handler run: the error returned to the dispatcher (none = success),
the collaborator calls attempted in order, and the errors logged-and-
continued along the way. -/
structure HOut : Type where
  res : Option String
  effs : List Eff
  logs : List String
deriving DecidableEq

/-- Log lines produced by a logged-and-continued fallible step. -/
def errLogs (prefix_ : String) (e : Option String) : List String :=
  match e with
  | some err => [prefix_ ++ ": " ++ err]
  | none => []

/-- Outcomes of the collaborator calls `CreateStatus` can make, standing for
the storage / federation environment.  `resolve` is the result of
`RefreshStatus` / `GetStatusByURI`: an error, or the resolved status where
`none` means the dereferencer returned no statusable object (another
delivery already created the status). -/
structure CreateStatusOracle where
  resolve : Except String (Option Status)
  approveReply : Option String
  acceptInteraction : Option String
  increment : Option String
  timeline : Option String
  notifyPending : Option String

/-- The tail of `CreateStatus` shared by the approved and no-approval paths
(internal/processing/workers/fromfediapi.go lines 277-293): increment the
acting account's status count (log-and-continue), invalidate the replied-to
status's timeline representation when this is a reply, then timeline and
notify the status (log-and-continue). -/
def CreateStatus.finish (status : Status) (o : CreateStatusOracle)
    (effs : List Eff) : HOut :=
  let effs1 := effs ++ [Eff.incrementStatusesCount]
  let logs1 := errLogs "error updating account stats" o.increment
  let effs2 :=
    if status.InReplyToID ≠ "" then
      effs1 ++ [Eff.invalidateStatusFromTimelines status.InReplyToID]
    else effs1
  let effs3 := effs2 ++ [Eff.timelineAndNotifyStatus]
  let logs2 := logs1 ++ errLogs "error timelining and notifying status" o.timeline
  { res := none, effs := effs3, logs := logs2 }

/-- The interaction-approval branching of `CreateStatus`
(internal/processing/workers/fromfediapi.go lines 234-293), entered once
resolution produced a status. -/
def CreateStatus.afterResolve (status : Status) (o : CreateStatusOracle) : HOut :=
  let pendingApproval := PtrOrValue status.PendingApproval false
  if pendingApproval && !status.PreApproved then
    { res := none,
      effs := [Eff.resolveStatus, Eff.notifyPendingReply],
      logs := errLogs "error notifying pending reply" o.notifyPending }
  else if pendingApproval && status.PreApproved then
    match o.approveReply with
    | some e =>
      { res := some ("error pre-approving reply: " ++ e),
        effs := [Eff.resolveStatus, Eff.approveReply], logs := [] }
    | none =>
      match o.acceptInteraction with
      | some e =>
        { res := some ("error federating pre-approval of reply: " ++ e),
          effs := [Eff.resolveStatus, Eff.approveReply, Eff.acceptInteraction],
          logs := [] }
      | none =>
        CreateStatus.finish status o
          [Eff.resolveStatus, Eff.approveReply, Eff.acceptInteraction]
  else
    CreateStatus.finish status o [Eff.resolveStatus]

/-- The shape of a `FromFediAPI` message as far as `CreateStatus` inspects
it: whether `APObject` / `APIRI` are set, and whether the set `APObject`
type-asserts to `ap.Statusable`. -/
structure FromFediAPI where
  hasAPObject : Bool
  apObjectIsStatusable : Bool
  hasAPIRI : Bool
deriving DecidableEq

/-- Go: `func (p *fediAPI) CreateStatus(ctx, fMsg)`
(internal/processing/workers/fromfediapi.go lines 170-294).  Resolution of
the status (via `RefreshStatus` for a supplied model, `GetStatusByURI` for a
forwarded IRI) is a recorded collaborator call whose outcome the oracle
supplies; a `none` statusable returns success immediately. -/
def CreateStatus (msg : FromFediAPI) (o : CreateStatusOracle) : HOut :=
  if msg.hasAPObject then
    if !msg.apObjectIsStatusable then
      { res := some "cannot cast APObject to ap.Statusable", effs := [], logs := [] }
    else
      match o.resolve with
      | Except.error e =>
        { res := some ("error processing new status: " ++ e),
          effs := [Eff.resolveStatus], logs := [] }
      | Except.ok none =>
        { res := none, effs := [Eff.resolveStatus], logs := [] }
      | Except.ok (some status) => CreateStatus.afterResolve status o
  else if msg.hasAPIRI then
    match o.resolve with
    | Except.error e =>
      { res := some ("error dereferencing forwarded status: " ++ e),
        effs := [Eff.resolveStatus], logs := [] }
    | Except.ok none =>
      { res := none, effs := [Eff.resolveStatus], logs := [] }
    | Except.ok (some status) => CreateStatus.afterResolve status o
  else
    { res := some "neither APObjectModel nor APIri set", effs := [], logs := [] }

/-- Outcomes of the collaborator calls `CreateLike` can make. -/
structure CreateLikeOracle where
  populate : Option String
  approveFave : Option String
  acceptInteraction : Option String
  notifyFave : Option String
  notifyPending : Option String
deriving DecidableEq

/-- The tail of `CreateLike` shared by the approved and no-approval paths
(internal/processing/workers/fromfediapi.go lines 455-463): notify the fave
(log-and-continue) then invalidate the faved status's timeline
representation. -/
def CreateLike.finish (fave : StatusFave) (o : CreateLikeOracle)
    (effs : List Eff) : HOut :=
  let effs1 := effs ++ [Eff.notifyFave]
  let logs1 := errLogs "error notifying fave" o.notifyFave
  let effs2 := effs1 ++ [Eff.invalidateStatusFromTimelines fave.StatusID]
  { res := none, effs := effs2, logs := logs1 }

/-- Go: `func (p *fediAPI) CreateLike(ctx, fMsg)`
(internal/processing/workers/fromfediapi.go lines 398-464), for a message
whose `GTSModel` type-asserts to `*gtsmodel.StatusFave` (`castOK`). -/
def CreateLike (castOK : Bool) (fave : StatusFave) (o : CreateLikeOracle) : HOut :=
  if !castOK then
    { res := some "not parseable as StatusFave", effs := [], logs := [] }
  else
    match o.populate with
    | some e =>
      { res := some ("error populating status fave: " ++ e),
        effs := [Eff.populateStatusFave], logs := [] }
    | none =>
      let pendingApproval := PtrOrValue fave.PendingApproval false
      if pendingApproval && !fave.PreApproved then
        { res := none,
          effs := [Eff.populateStatusFave, Eff.notifyPendingFave],
          logs := errLogs "error notifying pending fave" o.notifyPending }
      else if pendingApproval && fave.PreApproved then
        match o.approveFave with
        | some e =>
          { res := some ("error pre-approving fave: " ++ e),
            effs := [Eff.populateStatusFave, Eff.approveFave], logs := [] }
        | none =>
          match o.acceptInteraction with
          | some e =>
            { res := some ("error federating pre-approval of fave: " ++ e),
              effs := [Eff.populateStatusFave, Eff.approveFave, Eff.acceptInteraction],
              logs := [] }
          | none =>
            CreateLike.finish fave o
              [Eff.populateStatusFave, Eff.approveFave, Eff.acceptInteraction]
      else
        CreateLike.finish fave o [Eff.populateStatusFave]

/-- Outcome of the `EnrichAnnounce` federation call made by `CreateAnnounce`:
success with the enriched boost wrapper status, an unretrievable /
not-permitted error (which the handler treats as a benign skip), or an
actual error. -/
inductive EnrichResult : Type
| ok (boost : Status)
| benignErr (e : String)
| err (e : String)

/-- Outcomes of the collaborator calls `CreateAnnounce` can make. -/
structure CreateAnnounceOracle where
  enrich : EnrichResult
  approveAnnounce : Option String
  acceptInteraction : Option String
  increment : Option String
  timeline : Option String
  notifyAnnounce : Option String
  notifyPending : Option String

/-- The tail of `CreateAnnounce` shared by the approved and no-approval
paths (internal/processing/workers/fromfediapi.go lines 542-560): increment
the acting account's status count (log-and-continue), timeline and notify
the boost (log-and-continue), notify the announce (log-and-continue), then
invalidate the boosted status's timeline representation. -/
def CreateAnnounce.finish (boost : Status) (o : CreateAnnounceOracle)
    (effs : List Eff) : HOut :=
  let effs1 := effs ++ [Eff.incrementStatusesCount]
  let logs1 := errLogs "error updating account stats" o.increment
  let effs2 := effs1 ++ [Eff.timelineAndNotifyStatus]
  let logs2 := logs1 ++ errLogs "error timelining and notifying status" o.timeline
  let effs3 := effs2 ++ [Eff.notifyAnnounce]
  let logs3 := logs2 ++ errLogs "error notifying announce" o.notifyAnnounce
  let effs4 := effs3 ++ [Eff.invalidateStatusFromTimelines boost.BoostOfID]
  { res := none, effs := effs4, logs := logs3 }

/-- Go: `func (p *fediAPI) CreateAnnounce(ctx, fMsg)`
(internal/processing/workers/fromfediapi.go lines 466-561), for a message
whose `GTSModel` type-asserts to `*gtsmodel.Status` (`castOK`): dereference
the boost via `EnrichAnnounce` (unretrievable / not-permitted errors are a
logged benign skip), then the same pending / pre-approved branching as
`CreateStatus`, followed by counter increment, fan-out, announce
notification and boosted-status timeline invalidation. -/
def CreateAnnounce (castOK : Bool) (o : CreateAnnounceOracle) : HOut :=
  if !castOK then
    { res := some "not parseable as Status", effs := [], logs := [] }
  else
    match o.enrich with
    | EnrichResult.benignErr e =>
      { res := none, effs := [Eff.enrichAnnounce],
        logs := ["skipping announce: " ++ e] }
    | EnrichResult.err e =>
      { res := some ("error dereferencing announce: " ++ e),
        effs := [Eff.enrichAnnounce], logs := [] }
    | EnrichResult.ok boost =>
      let pendingApproval := PtrOrValue boost.PendingApproval false
      if pendingApproval && !boost.PreApproved then
        { res := none,
          effs := [Eff.enrichAnnounce, Eff.notifyPendingAnnounce],
          logs := errLogs "error notifying pending boost" o.notifyPending }
      else if pendingApproval && boost.PreApproved then
        match o.approveAnnounce with
        | some e =>
          { res := some ("error pre-approving boost: " ++ e),
            effs := [Eff.enrichAnnounce, Eff.approveAnnounce], logs := [] }
        | none =>
          match o.acceptInteraction with
          | some e =>
            { res := some ("error federating pre-approval of boost: " ++ e),
              effs := [Eff.enrichAnnounce, Eff.approveAnnounce, Eff.acceptInteraction],
              logs := [] }
          | none =>
            CreateAnnounce.finish boost o
              [Eff.enrichAnnounce, Eff.approveAnnounce, Eff.acceptInteraction]
      else
        CreateAnnounce.finish boost o [Eff.enrichAnnounce]

/-- The `gtsmodel.Block` fields `CreateBlock` reads. -/
structure Block where
  AccountID : String
  TargetAccountID : String
deriving DecidableEq

/-- Outcomes of the eight cleanup steps of `CreateBlock`, in program
order. -/
structure CreateBlockOracle where
  wipeHomeAT : Option String
  wipeHomeTA : Option String
  wipeListAT : Option String
  wipeListTA : Option String
  delFollowAT : Option String
  delFollowTA : Option String
  delFollowReqAT : Option String
  delFollowReqTA : Option String
deriving DecidableEq

/-- Go: `func (p *fediAPI) CreateBlock(ctx, fMsg)`
(internal/processing/workers/fromfediapi.go lines 563-640), for a message
whose `GTSModel` type-asserts to `*gtsmodel.Block` (`castOK`): wipe the pair
from each other's home and list timelines and delete follows and follow
requests in both directions, each step logged-and-continued, always
returning success. -/
def CreateBlock (castOK : Bool) (block : Block) (o : CreateBlockOracle) : HOut :=
  if !castOK then
    { res := some "not parseable as Block", effs := [], logs := [] }
  else
    let a := block.AccountID
    let t := block.TargetAccountID
    { res := none,
      effs :=
        [Eff.wipeHomeTimeline a t, Eff.wipeHomeTimeline t a,
         Eff.wipeListTimeline a t, Eff.wipeListTimeline t a,
         Eff.deleteFollow a t, Eff.deleteFollow t a,
         Eff.deleteFollowRequest a t, Eff.deleteFollowRequest t a],
      logs :=
        errLogs "error wiping items from block to target home timeline" o.wipeHomeAT ++
        errLogs "error wiping items from target to block home timeline" o.wipeHomeTA ++
        errLogs "error wiping items from block to target list timelines" o.wipeListAT ++
        errLogs "error wiping items from target to block list timelines" o.wipeListTA ++
        errLogs "error deleting follow from block to target" o.delFollowAT ++
        errLogs "error deleting follow from target to block" o.delFollowTA ++
        errLogs "error deleting follow request from block to target" o.delFollowReqAT ++
        errLogs "error deleting follow request from target to block" o.delFollowReqTA }

end Workers

/-! ## Claims -/

open Paging GtsCache Mutes Concurrency Workers

/-- C9: a cached mute decision yields muted=true only when its `Mute` flag is
set and its embedded `MuteExpiry` is either the zero time or still in the
future; in particular a cache hit whose `MuteExpiry` has already passed
yields muted=false with withExpiry=true — the expiry is compared against
"now" on every read. -/
theorem c9_statusMuted_rechecks_expiry :
    ∀ (d : CachedMute) (now : Nat),
      (∀ m w, Filter.StatusMuted (Except.ok (d, now)) = Except.ok (m, w) →
        m = true → d.Mute = true ∧ (d.MuteExpiry = 0 ∨ now < d.MuteExpiry)) ∧
      (d.Mute = true → d.MuteExpiry ≠ 0 → ¬ (now < d.MuteExpiry) →
        Filter.StatusMuted (Except.ok (d, now)) = Except.ok (false, true)) ∧
      (d.Mute = true →
        Filter.StatusMuted (Except.ok (d, now)) =
          Except.ok (!(d.MuteExpired now), decide (d.MuteExpiry ≠ 0))) := by
  intro d now
  by_cases hM : d.Mute <;>
    by_cases hE : d.MuteExpiry = 0 <;>
      by_cases hN : now < d.MuteExpiry <;>
        simp_all [Filter.StatusMuted, CachedMute.MuteExpired]

/-- C9 witness: a cache hit whose mute expiry (5) has already passed
(now = 7) reports muted=false, withExpiry=true. -/
theorem c9_witness :
    Filter.StatusMuted
      (Except.ok ({ ItemID := "S", RequesterID := "R", Mute := true,
                    MuteExpiry := 5, Notifications := false,
                    NotificationExpiry := 0 }, 7)) =
      Except.ok (false, true) :=
  (c9_statusMuted_rechecks_expiry
    { ItemID := "S", RequesterID := "R", Mute := true, MuteExpiry := 5,
      Notifications := false, NotificationExpiry := 0 } 7).2.1
    rfl (by decide) (by decide)

/-- C10: `AccountCache.Set` panics exactly when the account is nil or has an
empty ID or URI, and `NotificationCache.Put` panics exactly when the
notification is nil or has an empty ID; for a non-nil value with the
required keys non-empty the panic branch is unreachable. -/
theorem c10_cache_insert_panics :
    ∀ (c : AccountCache) (now : Nat) (acc : Option Account)
      (nc : NotificationCache) (n : Option Notification),
      ((∃ e, AccountCache.Set c now acc = Except.error e) ↔
        (acc = none ∨ ∃ a, acc = some a ∧ (a.ID = "" ∨ a.URI = ""))) ∧
      ((∃ e, NotificationCache.Put nc n = Except.error e) ↔
        (n = none ∨ ∃ m, n = some m ∧ m.ID = "")) ∧
      (∀ a, acc = some a → a.ID ≠ "" → a.URI ≠ "" →
        ∃ c2, AccountCache.Set c now acc = Except.ok c2) ∧
      (∀ m, n = some m → m.ID ≠ "" →
        ∃ nc2, NotificationCache.Put nc n = Except.ok nc2) := by
  intro c now acc nc n
  refine ⟨?_, ?_, ?_, ?_⟩
  · cases acc with
    | none => simp [AccountCache.Set]
    | some a =>
      by_cases hI : a.ID = "" <;> by_cases hU : a.URI = "" <;>
        simp_all [AccountCache.Set]
  · cases n with
    | none => simp [NotificationCache.Put]
    | some m =>
      by_cases hI : m.ID = "" <;> simp_all [NotificationCache.Put]
  · intro a ha hI hU
    subst ha
    simp [AccountCache.Set, hI, hU]
  · intro m hm hI
    subst hm
    simp [NotificationCache.Put, hI]

/-- C10 witness: inserting a concrete valid account and a concrete valid
notification does not hit the panic branch. -/
theorem c10_witness :
    (∃ c2, AccountCache.Set
        { cache := { cache := [], ttl := 300 }, urls := [], uris := [] } 0
        (some { ID := "01A", URI := "https://e.example/a", URL := "",
                AvatarMediaAttachment := some 1,
                HeaderMediaAttachment := none, rest := "r" }) =
      Except.ok c2) ∧
    (∃ nc2, NotificationCache.Put { cache := [] }
        (some { ID := "01N", Status := some 2, OriginAccount := none,
                TargetAccount := none, rest := "r" }) =
      Except.ok nc2) := by
  have h := c10_cache_insert_panics
    { cache := { cache := [], ttl := 300 }, urls := [], uris := [] } 0
    (some { ID := "01A", URI := "https://e.example/a", URL := "",
            AvatarMediaAttachment := some 1,
            HeaderMediaAttachment := none, rest := "r" })
    { cache := [] }
    (some { ID := "01N", Status := some 2, OriginAccount := none,
            TargetAccount := none, rest := "r" })
  exact ⟨h.2.2.1 _ rfl (by decide) (by decide), h.2.2.2 _ rfl (by decide)⟩

/-- C8: the closure `WorkerPool.Queue` enqueues logs the processor's error
and propagates nothing back to the pool, so a failed message never prevents
the worker from processing the messages that follow it. -/
theorem c8_worker_pool_error_sink :
    ∀ (Ctx Msg E : Type) (process : Ctx → Msg → Option E) (msg : Msg) (ctx : Ctx),
      (∀ e, process ctx msg = some e →
        WorkerPool.queuedFn process msg ctx = (Except.ok (), [e])) ∧
      (process ctx msg = none →
        WorkerPool.queuedFn process msg ctx = (Except.ok (), [])) ∧
      (∀ msgs : List Msg, (WorkerPool.drain process ctx msgs).1 = msgs) := by
  intro Ctx Msg E process msg ctx
  refine ⟨?_, ?_, ?_⟩
  · intro e he
    simp [WorkerPool.queuedFn, he]
  · intro he
    simp [WorkerPool.queuedFn, he]
  · intro msgs
    induction msgs with
    | nil => rfl
    | cons m rest ih =>
      simp only [WorkerPool.drain, WorkerPool.queuedFn]
      cases process ctx m <;> simp [ih]

/-- C8 witness: a processor that always fails still has its error routed to
the log only, and a two-message queue is drained completely. -/
theorem c8_witness :
    WorkerPool.queuedFn (fun (_ : Unit) (_ : Unit) => some (7 : Nat)) () () =
      (Except.ok (), [7]) ∧
    (WorkerPool.drain (fun (_ : Unit) (_ : Unit) => some (7 : Nat)) ()
      [(), ()]).1 = [(), ()] :=
  ⟨(c8_worker_pool_error_sink Unit Unit Nat
      (fun _ _ => some 7) () ()).1 7 rfl,
   (c8_worker_pool_error_sink Unit Unit Nat
      (fun _ _ => some 7) () ()).2.2 [(), ()]⟩

/-- C6: `ProcessFromFediAPI` invokes exactly the handler registered for the
(activity-type, object-type) pair, and for every unregistered pair it fails
closed with an unhandled error naming both tags and invoking no handler. -/
theorem c6_dispatch_fails_closed :
    ∀ (a o : APType),
      (∀ h : Handler,
        ProcessFromFediAPI a o = Except.ok h → (a, o, h) ∈ handlerTable) ∧
      (∀ h : Handler,
        (a, o, h) ∈ handlerTable → ProcessFromFediAPI a o = Except.ok h) ∧
      ((∀ h : Handler, (a, o, h) ∉ handlerTable) →
        ProcessFromFediAPI a o = Except.error (a, o)) ∧
      (ProcessFromFediAPI a o = Except.error (a, o) →
        ∀ h : Handler, (a, o, h) ∉ handlerTable) := by
  intro a o
  refine ⟨?_, ?_, ?_, ?_⟩
  · intro h hp
    cases a <;> cases o <;> simp_all [ProcessFromFediAPI, handlerTable]
  · intro h hm
    fin_cases hm <;> rfl
  · intro hno
    cases a <;> cases o <;>
      first
        | rfl
        | simp [handlerTable] at hno
  · intro hp h hm
    fin_cases hm <;> simp [ProcessFromFediAPI] at hp

/-- C6 witness: the registered pair (Create, Note) dispatches to the
CreateStatus handler, and the unregistered pair (Delete, Follow) fails
closed with an error naming both tags. -/
theorem c6_witness :
    ProcessFromFediAPI APType.create APType.note =
      Except.ok Handler.createStatus ∧
    ProcessFromFediAPI APType.delete APType.follow =
      Except.error (APType.delete, APType.follow) :=
  ⟨(c6_dispatch_fails_closed APType.create APType.note).2.1
      Handler.createStatus (by decide),
   (c6_dispatch_fails_closed APType.delete APType.follow).2.2.1
      (by simp [handlerTable])⟩

/-- C5: `CreateBlock` attempts all eight cleanup steps — the four timeline
wipes and the four relationship deletions — in order and unconditionally,
logs exactly one line per failing step, and always returns success,
whatever combination of steps the storage environment fails. -/
theorem c5_block_cleanup_independent :
    ∀ (block : Block) (o : CreateBlockOracle),
      (CreateBlock true block o).res = none ∧
      (CreateBlock true block o).effs =
        [Eff.wipeHomeTimeline block.AccountID block.TargetAccountID,
         Eff.wipeHomeTimeline block.TargetAccountID block.AccountID,
         Eff.wipeListTimeline block.AccountID block.TargetAccountID,
         Eff.wipeListTimeline block.TargetAccountID block.AccountID,
         Eff.deleteFollow block.AccountID block.TargetAccountID,
         Eff.deleteFollow block.TargetAccountID block.AccountID,
         Eff.deleteFollowRequest block.AccountID block.TargetAccountID,
         Eff.deleteFollowRequest block.TargetAccountID block.AccountID] ∧
      (CreateBlock true block o).logs.length =
        List.countP Option.isSome
          [o.wipeHomeAT, o.wipeHomeTA, o.wipeListAT, o.wipeListTA,
           o.delFollowAT, o.delFollowTA, o.delFollowReqAT, o.delFollowReqTA] := by
  intro block o
  obtain ⟨a1, a2, a3, a4, a5, a6, a7, a8⟩ := o
  refine ⟨rfl, rfl, ?_⟩
  cases a1 <;> cases a2 <;> cases a3 <;> cases a4 <;>
    cases a5 <;> cases a6 <;> cases a7 <;> cases a8 <;>
      simp [CreateBlock, errLogs]

/-- C2: when status resolution reports that another delivery already created
the status (the resolver succeeds with no statusable object), `CreateStatus`
returns success having performed no side effect beyond the resolution call
itself: no notification, no counter update, no timeline invalidation, no
fan-out, and nothing logged. -/
theorem c2_duplicate_create_idempotent :
    ∀ (msg : FromFediAPI) (o : CreateStatusOracle),
      o.resolve = Except.ok none →
      ((msg.hasAPObject = true ∧ msg.apObjectIsStatusable = true) ∨
       (msg.hasAPObject = false ∧ msg.hasAPIRI = true)) →
      CreateStatus msg o =
        { res := none, effs := [Eff.resolveStatus], logs := [] } := by
  intro msg o hres hshape
  rcases hshape with ⟨h1, h2⟩ | ⟨h1, h2⟩ <;>
    simp [CreateStatus, h1, h2, hres]

/-- C2 witness: a concrete Create-Note message whose resolution returns no
object yields success with only the resolution call performed. -/
theorem c2_witness :
    CreateStatus { hasAPObject := true, apObjectIsStatusable := true, hasAPIRI := false }
      { resolve := Except.ok none, approveReply := none, acceptInteraction := none,
        increment := none, timeline := none, notifyPending := none } =
      { res := none, effs := [Eff.resolveStatus], logs := [] } :=
  c2_duplicate_create_idempotent
    { hasAPObject := true, apObjectIsStatusable := true, hasAPIRI := false }
    { resolve := Except.ok none, approveReply := none, acceptInteraction := none,
      increment := none, timeline := none, notifyPending := none }
    rfl (Or.inl ⟨rfl, rfl⟩)

/-- C1 counterexample: a federation Create-Like whose fave has
PendingApproval=true and PreApproved=true succeeds after the approval write
and the outbound Accept, but the handler performs no counter increment and
no timeline fan-out — its continued processing is the fave notification and
the faved status's timeline invalidation — contradicting the claim that the
handler then "performs the counter increment and timeline fan-out". -/
theorem c1_counterexample :
    (CreateLike true
        { PendingApproval := some true, PreApproved := true, StatusID := "S1" }
        { populate := none, approveFave := none, acceptInteraction := none,
          notifyFave := none, notifyPending := none }).res = none ∧
    (CreateLike true
        { PendingApproval := some true, PreApproved := true, StatusID := "S1" }
        { populate := none, approveFave := none, acceptInteraction := none,
          notifyFave := none, notifyPending := none }).effs =
      [Eff.populateStatusFave, Eff.approveFave, Eff.acceptInteraction,
       Eff.notifyFave, Eff.invalidateStatusFromTimelines "S1"] ∧
    Eff.incrementStatusesCount ∉
      (CreateLike true
        { PendingApproval := some true, PreApproved := true, StatusID := "S1" }
        { populate := none, approveFave := none, acceptInteraction := none,
          notifyFave := none, notifyPending := none }).effs ∧
    Eff.timelineAndNotifyStatus ∉
      (CreateLike true
        { PendingApproval := some true, PreApproved := true, StatusID := "S1" }
        { populate := none, approveFave := none, acceptInteraction := none,
          notifyFave := none, notifyPending := none }).effs := by
  refine ⟨rfl, rfl, ?_, ?_⟩ <;> decide

/-- C1 (amended): with PendingApproval=true and PreApproved=false, the
reply / like / boost handlers emit only the pending-interaction
notification and return success — no approval write, no Accept, no counter
increment, no fan-out.  With PreApproved=true they first persist the
approval record, then federate the outbound Accept, aborting with an error
if either fails; only then do the reply and boost handlers perform the
counter increment and the timeline fan-out, in that order (the reply
handler with the ancestor invalidation between them, the boost handler with
the announce notification and boosted-status invalidation after them),
while the like handler performs its fave notification and faved-status
timeline invalidation (likes have no counter-increment or fan-out step). -/
theorem c1_amended_approval_gating :
    ∀ (msg : FromFediAPI) (o : CreateStatusOracle) (status : Status)
      (fave : StatusFave) (lo : CreateLikeOracle)
      (boost : Status) (ao : CreateAnnounceOracle),
      msg.hasAPObject = true →
      msg.apObjectIsStatusable = true →
      o.resolve = Except.ok (some status) →
      status.PendingApproval = some true →
      fave.PendingApproval = some true →
      ao.enrich = EnrichResult.ok boost →
      boost.PendingApproval = some true →
      ((status.PreApproved = false →
          CreateStatus msg o =
            { res := none,
              effs := [Eff.resolveStatus, Eff.notifyPendingReply],
              logs := errLogs "error notifying pending reply" o.notifyPending }) ∧
       (status.PreApproved = true → ∀ e, o.approveReply = some e →
          CreateStatus msg o =
            { res := some ("error pre-approving reply: " ++ e),
              effs := [Eff.resolveStatus, Eff.approveReply], logs := [] }) ∧
       (status.PreApproved = true → o.approveReply = none →
          ∀ e, o.acceptInteraction = some e →
          CreateStatus msg o =
            { res := some ("error federating pre-approval of reply: " ++ e),
              effs := [Eff.resolveStatus, Eff.approveReply, Eff.acceptInteraction],
              logs := [] }) ∧
       (status.PreApproved = true → o.approveReply = none →
          o.acceptInteraction = none →
          (CreateStatus msg o).res = none ∧
          (CreateStatus msg o).effs =
            [Eff.resolveStatus, Eff.approveReply, Eff.acceptInteraction,
             Eff.incrementStatusesCount] ++
            (if status.InReplyToID ≠ "" then
              [Eff.invalidateStatusFromTimelines status.InReplyToID] else []) ++
            [Eff.timelineAndNotifyStatus]) ∧
       (fave.PreApproved = false → lo.populate = none →
          CreateLike true fave lo =
            { res := none,
              effs := [Eff.populateStatusFave, Eff.notifyPendingFave],
              logs := errLogs "error notifying pending fave" lo.notifyPending }) ∧
       (fave.PreApproved = true → lo.populate = none →
          ∀ e, lo.approveFave = some e →
          CreateLike true fave lo =
            { res := some ("error pre-approving fave: " ++ e),
              effs := [Eff.populateStatusFave, Eff.approveFave], logs := [] }) ∧
       (fave.PreApproved = true → lo.populate = none → lo.approveFave = none →
          ∀ e, lo.acceptInteraction = some e →
          CreateLike true fave lo =
            { res := some ("error federating pre-approval of fave: " ++ e),
              effs := [Eff.populateStatusFave, Eff.approveFave, Eff.acceptInteraction],
              logs := [] }) ∧
       (fave.PreApproved = true → lo.populate = none → lo.approveFave = none →
          lo.acceptInteraction = none →
          (CreateLike true fave lo).res = none ∧
          (CreateLike true fave lo).effs =
            [Eff.populateStatusFave, Eff.approveFave, Eff.acceptInteraction,
             Eff.notifyFave, Eff.invalidateStatusFromTimelines fave.StatusID]) ∧
       (boost.PreApproved = false →
          CreateAnnounce true ao =
            { res := none,
              effs := [Eff.enrichAnnounce, Eff.notifyPendingAnnounce],
              logs := errLogs "error notifying pending boost" ao.notifyPending }) ∧
       (boost.PreApproved = true → ∀ e, ao.approveAnnounce = some e →
          CreateAnnounce true ao =
            { res := some ("error pre-approving boost: " ++ e),
              effs := [Eff.enrichAnnounce, Eff.approveAnnounce], logs := [] }) ∧
       (boost.PreApproved = true → ao.approveAnnounce = none →
          ∀ e, ao.acceptInteraction = some e →
          CreateAnnounce true ao =
            { res := some ("error federating pre-approval of boost: " ++ e),
              effs := [Eff.enrichAnnounce, Eff.approveAnnounce, Eff.acceptInteraction],
              logs := [] }) ∧
       (boost.PreApproved = true → ao.approveAnnounce = none →
          ao.acceptInteraction = none →
          (CreateAnnounce true ao).res = none ∧
          (CreateAnnounce true ao).effs =
            [Eff.enrichAnnounce, Eff.approveAnnounce, Eff.acceptInteraction,
             Eff.incrementStatusesCount, Eff.timelineAndNotifyStatus,
             Eff.notifyAnnounce,
             Eff.invalidateStatusFromTimelines boost.BoostOfID])) := by
  intro msg o status fave lo boost ao hObj hCast hRes hSP hFP hEn hBP
  refine ⟨?_, ?_, ?_, ?_, ?_, ?_, ?_, ?_, ?_, ?_, ?_, ?_⟩
  · intro hPre
    simp [CreateStatus, hObj, hCast, hRes, CreateStatus.afterResolve,
      PtrOrValue, hSP, hPre]
  · intro hPre e hAppr
    simp [CreateStatus, hObj, hCast, hRes, CreateStatus.afterResolve,
      PtrOrValue, hSP, hPre, hAppr]
  · intro hPre hAppr e hAcc
    simp [CreateStatus, hObj, hCast, hRes, CreateStatus.afterResolve,
      PtrOrValue, hSP, hPre, hAppr, hAcc]
  · intro hPre hAppr hAcc
    by_cases hR : status.InReplyToID = "" <;>
      simp [CreateStatus, hObj, hCast, hRes, CreateStatus.afterResolve,
        CreateStatus.finish, PtrOrValue, hSP, hPre, hAppr, hAcc, hR]
  · intro hPre hPop
    simp [CreateLike, hPop, PtrOrValue, hFP, hPre]
  · intro hPre hPop e hAppr
    simp [CreateLike, hPop, PtrOrValue, hFP, hPre, hAppr]
  · intro hPre hPop hAppr e hAcc
    simp [CreateLike, hPop, PtrOrValue, hFP, hPre, hAppr, hAcc]
  · intro hPre hPop hAppr hAcc
    simp [CreateLike, CreateLike.finish, hPop, PtrOrValue, hFP, hPre,
      hAppr, hAcc]
  · intro hPre
    simp [CreateAnnounce, hEn, PtrOrValue, hBP, hPre]
  · intro hPre e hAppr
    simp [CreateAnnounce, hEn, PtrOrValue, hBP, hPre, hAppr]
  · intro hPre hAppr e hAcc
    simp [CreateAnnounce, hEn, PtrOrValue, hBP, hPre, hAppr, hAcc]
  · intro hPre hAppr hAcc
    simp [CreateAnnounce, CreateAnnounce.finish, hEn, PtrOrValue, hBP, hPre,
      hAppr, hAcc]

/-- C1 witness: a concrete pre-approved reply (in reply to status "R") runs
approval write, Accept, counter increment, ancestor invalidation and
fan-out in that order; a concrete pre-approved boost (of status "B") runs
approval write, Accept, counter increment, fan-out, announce notification
and boosted-status invalidation in that order; and a concrete pending
non-pre-approved like emits only the pending-fave notification. -/
theorem c1_amended_witness :
    (CreateStatus
        { hasAPObject := true, apObjectIsStatusable := true, hasAPIRI := false }
        { resolve :=
            Except.ok
              (some { PendingApproval := some true, PreApproved := true, InReplyToID := "R", BoostOfID := "" }),
          approveReply := none, acceptInteraction := none, increment := none,
          timeline := none, notifyPending := none }).effs =
      [Eff.resolveStatus, Eff.approveReply, Eff.acceptInteraction,
       Eff.incrementStatusesCount, Eff.invalidateStatusFromTimelines "R",
       Eff.timelineAndNotifyStatus] ∧
    (CreateAnnounce true
        { enrich :=
            EnrichResult.ok
              { PendingApproval := some true, PreApproved := true, InReplyToID := "", BoostOfID := "B" },
          approveAnnounce := none, acceptInteraction := none, increment := none,
          timeline := none, notifyAnnounce := none, notifyPending := none }).effs =
      [Eff.enrichAnnounce, Eff.approveAnnounce, Eff.acceptInteraction,
       Eff.incrementStatusesCount, Eff.timelineAndNotifyStatus,
       Eff.notifyAnnounce, Eff.invalidateStatusFromTimelines "B"] ∧
    CreateLike true
        { PendingApproval := some true, PreApproved := false, StatusID := "S2" }
        { populate := none, approveFave := none, acceptInteraction := none,
          notifyFave := none, notifyPending := none } =
      { res := none, effs := [Eff.populateStatusFave, Eff.notifyPendingFave],
        logs := [] } := by
  have h := c1_amended_approval_gating
    { hasAPObject := true, apObjectIsStatusable := true, hasAPIRI := false }
    { resolve :=
        Except.ok
          (some { PendingApproval := some true, PreApproved := true, InReplyToID := "R", BoostOfID := "" }),
      approveReply := none, acceptInteraction := none, increment := none,
      timeline := none, notifyPending := none }
    { PendingApproval := some true, PreApproved := true, InReplyToID := "R", BoostOfID := "" }
    { PendingApproval := some true, PreApproved := false, StatusID := "S2" }
    { populate := none, approveFave := none, acceptInteraction := none,
      notifyFave := none, notifyPending := none }
    { PendingApproval := some true, PreApproved := true, InReplyToID := "", BoostOfID := "B" }
    { enrich :=
        EnrichResult.ok
          { PendingApproval := some true, PreApproved := true, InReplyToID := "", BoostOfID := "B" },
      approveAnnounce := none, acceptInteraction := none, increment := none,
      timeline := none, notifyAnnounce := none, notifyPending := none }
    rfl rfl rfl rfl rfl rfl rfl
  refine ⟨?_, ?_, ?_⟩
  · have h2 := (h.2.2.2.1 rfl rfl rfl).2
    simpa using h2
  · exact (h.2.2.2.2.2.2.2.2.2.2.2 rfl rfl rfl).2
  · exact h.2.2.2.2.1 rfl rfl

/-- Overwriting a key then reading it back yields the new value. -/
theorem alGet_alSet_self {β : Type} (m : List (String × β)) (k : String) (v : β) :
    alGet (alSet m k v) k = some v := by
  induction m with
  | nil => simp [alSet, alGet]
  | cons hd tl ih =>
    obtain ⟨k1, v1⟩ := hd
    by_cases h : k1 = k <;> simp [alSet, alGet, h, ih]

/-- Overwriting a key leaves every other key's value unchanged. -/
theorem alGet_alSet_ne {β : Type} (m : List (String × β)) (k k2 : String) (v : β)
    (h : k2 ≠ k) : alGet (alSet m k v) k2 = alGet m k2 := by
  induction m with
  | nil =>
    simp [alSet, alGet, Ne.symm h]
  | cons hd tl ih =>
    obtain ⟨k1, v1⟩ := hd
    by_cases h1 : k1 = k <;> by_cases h2 : k1 = k2 <;>
      simp_all [alSet, alGet]

/-- `copyAccount` is idempotent. -/
theorem copyAccount_copyAccount (a : Account) :
    copyAccount (copyAccount a) = copyAccount a := rfl

/-- A `Cache.get` never changes the value stored under any key (it only
extends the hit entry's expiry). -/
theorem Cache_get_preserves_values {V : Type} (c : Cache V) (now : Nat)
    (key k : String) :
    (alGet ((Cache.get c now key).2).cache k).map Entry.value =
      (alGet c.cache k).map Entry.value := by
  unfold Cache.get
  cases h : alGet c.cache key with
  | none => simp
  | some item =>
    by_cases hk : k = key
    · subst hk
      simp [alGet_alSet_self, h]
    · simp [alGet_alSet_ne _ _ _ _ hk]

/-- `cacheSet` stores exactly the supplied value under the supplied key,
with the TTL-derived expiry, and keeps the cache TTL. -/
theorem cacheSet_stores (c : AccountCache) (now : Nat) (key : String) (v : Account) :
    alGet ((AccountCache.cacheSet c now key v).cache.cache) key =
      some { value := v, expiry := now + c.cache.ttl } ∧
    (AccountCache.cacheSet c now key v).cache.ttl = c.cache.ttl := by
  unfold AccountCache.cacheSet
  cases h : alGet c.cache.cache key <;> simp [h, alGet_alSet_self]

/-- A successful `Set` leaves the primary cache exactly as `cacheSet` of the
defensive copy does (the remaining lines only touch the lookup maps). -/
theorem set_ok_cache (c : AccountCache) (now : Nat) (a : Account) (c2 : AccountCache)
    (hset : AccountCache.Set c now (some a) = Except.ok c2) :
    c2.cache = (AccountCache.cacheSet c now a.ID (copyAccount a)).cache := by
  unfold AccountCache.Set at hset
  by_cases hv : a.ID = "" ∨ a.URI = ""
  · simp [hv] at hset
  · simp only [hv, if_false, Except.ok.injEq] at hset
    subst hset
    by_cases hu : a.URL ≠ "" <;> simp [hu]

/-- C7: every account handed out by a cache get (`GetByID` / `GetByURI` /
`GetByURL`) is a defensive copy whose avatar / header media-attachment
pointers are severed; a get never changes any stored value, so after a
caller mutates its returned copy (`_mutate`, which acts outside the cache
state) a repeated get for the same key still returns the original value;
and `Set` stores `copyAccount` of its input, so the copy later returned
shares no attachment pointer with the caller's account. -/
theorem c7_cache_copy_isolation :
    ∀ (c : AccountCache) (now : Nat) (id uri url : String),
      (∀ a c2, AccountCache.GetByID c now id = (some a, c2) →
        a.AvatarMediaAttachment = none ∧ a.HeaderMediaAttachment = none) ∧
      (∀ a c2, AccountCache.GetByURI c now uri = (some a, c2) →
        a.AvatarMediaAttachment = none ∧ a.HeaderMediaAttachment = none) ∧
      (∀ a c2, AccountCache.GetByURL c now url = (some a, c2) →
        a.AvatarMediaAttachment = none ∧ a.HeaderMediaAttachment = none) ∧
      (∀ (_mutate : Account → Account) (now2 : Nat),
        (AccountCache.GetByID ((AccountCache.GetByID c now id).2) now2 id).1 =
          (AccountCache.GetByID c now id).1) ∧
      (∀ (a : Account) (now2 : Nat) (c2 : AccountCache),
        AccountCache.Set c now (some a) = Except.ok c2 →
        (AccountCache.GetByID c2 now2 a.ID).1 = some (copyAccount a) ∧
        (copyAccount a).AvatarMediaAttachment = none ∧
        (copyAccount a).HeaderMediaAttachment = none) := by
  intro c now id uri url
  have hsev : ∀ (cc : AccountCache) (nn : Nat) (key : String) (a : Account)
      (c2 : AccountCache), AccountCache.getByID cc nn key = (some a, c2) →
      a.AvatarMediaAttachment = none ∧ a.HeaderMediaAttachment = none := by
    intro cc nn key a c2 hget
    unfold AccountCache.getByID Cache.get at hget
    cases h : alGet cc.cache.cache key with
    | none => simp [h] at hget
    | some item =>
      simp [h] at hget
      obtain ⟨ha, _⟩ := hget
      subst ha
      exact ⟨rfl, rfl⟩
  refine ⟨?_, ?_, ?_, ?_, ?_⟩
  · intro a c2 hget
    exact hsev c now id a c2 hget
  · intro a c2 hget
    unfold AccountCache.GetByURI at hget
    cases h : alGet c.uris uri with
    | none => simp [h] at hget
    | some i =>
      rw [h] at hget
      exact hsev c now i a c2 hget
  · intro a c2 hget
    unfold AccountCache.GetByURL at hget
    cases h : alGet c.urls url with
    | none => simp [h] at hget
    | some i =>
      rw [h] at hget
      exact hsev c now i a c2 hget
  · intro _mutate now2
    unfold AccountCache.GetByID AccountCache.getByID Cache.get
    cases h : alGet c.cache.cache id with
    | none => simp [h]
    | some item => simp [h, alGet_alSet_self]
  · intro a now2 c2 hset
    refine ⟨?_, rfl, rfl⟩
    have hc := set_ok_cache c now a c2 hset
    unfold AccountCache.GetByID AccountCache.getByID Cache.get
    rw [hc, (cacheSet_stores c now a.ID (copyAccount a)).1]
    simp [copyAccount_copyAccount]

/-- C7 witness: storing a concrete account whose avatar / header point at
attachments 5 and 6 and reading it back by ID returns the severed defensive
copy. -/
theorem c7_witness :
    (AccountCache.GetByID
        { cache :=
            { cache :=
                [("A1",
                  { value := { ID := "A1", URI := "u1", URL := "",
                               AvatarMediaAttachment := none,
                               HeaderMediaAttachment := none, rest := "x" },
                    expiry := 300 })],
              ttl := 300 },
          urls := [], uris := [("u1", "A1")] } 1 "A1").1 =
      some (copyAccount
        { ID := "A1", URI := "u1", URL := "",
          AvatarMediaAttachment := some 5, HeaderMediaAttachment := some 6,
          rest := "x" }) ∧
    (copyAccount
        { ID := "A1", URI := "u1", URL := "",
          AvatarMediaAttachment := some 5, HeaderMediaAttachment := some 6,
          rest := "x" }).AvatarMediaAttachment = none ∧
    (copyAccount
        { ID := "A1", URI := "u1", URL := "",
          AvatarMediaAttachment := some 5, HeaderMediaAttachment := some 6,
          rest := "x" }).HeaderMediaAttachment = none :=
  (c7_cache_copy_isolation
      { cache := { cache := [], ttl := 300 }, urls := [], uris := [] }
      0 "A1" "u1" "").2.2.2.2
    { ID := "A1", URI := "u1", URL := "",
      AvatarMediaAttachment := some 5, HeaderMediaAttachment := some 6,
      rest := "x" }
    1
    { cache :=
        { cache :=
            [("A1",
              { value := { ID := "A1", URI := "u1", URL := "",
                           AvatarMediaAttachment := none,
                           HeaderMediaAttachment := none, rest := "x" },
                expiry := 300 })],
          ttl := 300 },
      urls := [], uris := [("u1", "A1")] }
    rfl

/-- For a strictly `R`-sorted list containing `v`, dropping everything up to
and including the first exact match of `v` yields exactly the elements `R v`
relates to. -/
theorem findIdx_drop_eq_filter {T : Type} [DecidableEq T] (R : T → T → Prop) [DecidableRel R]
    (hA : ∀ a b : T, R a b → ¬ R b a) :
    ∀ (xs : List T) (v : T), List.Pairwise R xs → v ∈ xs →
    (match xs.findIdx? (fun x => x = v) with
     | some i => xs.drop (i + 1)
     | none => xs) = xs.filter (fun x => R v x) := by
  intro xs v
  induction xs with
  | nil => intro _ hv; cases hv
  | cons x xs ih =>
    intro hp hv
    rcases List.pairwise_cons.mp hp with ⟨hhead, htail⟩
    by_cases hx : x = v
    · subst hx
      have hirr : ¬ R x x := fun hxx => hA x x hxx hxx
      simp [hirr, List.filter_eq_self.mpr (fun y hy => decide_eq_true (hhead y hy))]
    · have hv2 : v ∈ xs := by
        cases hv with
        | head => exact absurd rfl hx
        | tail _ h => exact h
      have hnRv : ¬ R v x := hA x v (hhead v hv2)
      cases h2 : xs.findIdx? (fun y => (decide (y = v))) with
      | none =>
        exfalso
        have h3 := List.findIdx?_eq_none_iff.mp h2 v hv2
        simp at h3
      | some i =>
        have hih := ih htail hv2
        rw [h2] at hih
        simp only at hih
        simp [List.findIdx?_succ, hx, h2, hnRv, hih]

/-- For a strictly `R`-sorted list containing `v`, taking everything before
the first exact match of `v` yields exactly the elements related to `v` by
`R`. -/
theorem findIdx_take_eq_filter {T : Type} [DecidableEq T] (R : T → T → Prop) [DecidableRel R]
    (hA : ∀ a b : T, R a b → ¬ R b a) :
    ∀ (xs : List T) (v : T), List.Pairwise R xs → v ∈ xs →
    (match xs.findIdx? (fun x => x = v) with
     | some i => xs.take i
     | none => xs) = xs.filter (fun x => R x v) := by
  intro xs v
  induction xs with
  | nil => intro _ hv; cases hv
  | cons x xs ih =>
    intro hp hv
    rcases List.pairwise_cons.mp hp with ⟨hhead, htail⟩
    by_cases hx : x = v
    · subst hx
      have hirr : ¬ R x x := fun hxx => hA x x hxx hxx
      have hnone : ∀ y ∈ xs, ¬ R y x := fun y hy hR => hA x y (hhead y hy) hR
      have hfil : xs.filter (fun y => decide (R y x)) = [] :=
        List.filter_eq_nil_iff.mpr (fun a ha => by simp [hnone a ha])
      simp [hirr, hfil]
    · have hv2 : v ∈ xs := by
        cases hv with
        | head => exact absurd rfl hx
        | tail _ h => exact h
      have hRxv : R x v := hhead v hv2
      cases h2 : xs.findIdx? (fun y => (decide (y = v))) with
      | none =>
        exfalso
        have h3 := List.findIdx?_eq_none_iff.mp h2 v hv2
        simp at h3
      | some i =>
        have hih := ih htail hv2
        rw [h2] at hih
        simp only at hih
        simp [List.findIdx?_succ, hx, h2, hRxv, hih, List.take_succ_cons]

/-- The minimum-boundary reslice of `PageAsc` / `PageDesc` (drop through the
found index) is the filter keeping elements strictly beyond the boundary
value, a zero boundary value imposing no bound. -/
theorem find_drop_eq {T : Type} [DecidableEq T] [Zeroed T]
    (R : T → T → Prop) [DecidableRel R]
    (hA : ∀ a b : T, R a b → ¬ R b a) (b : Boundary T) (xs : List T)
    (hs : List.Pairwise R xs) (hb : zero b.Value = false → b.Value ∈ xs) :
    (match b.Find xs with
     | some i => xs.drop (i + 1)
     | none => xs) =
      xs.filter (fun x => (zero b.Value || decide (R b.Value x))) := by
  by_cases hz : zero b.Value
  · simp [Boundary.Find, hz]
  · rw [show b.Find xs = xs.findIdx? (fun x => x = b.Value) by
      simp [Boundary.Find, hz]]
    rw [findIdx_drop_eq_filter R hA xs b.Value hs (hb (by simpa using hz))]
    refine List.filter_congr ?_
    intro x _
    simp [hz]

/-- The maximum-boundary reslice of `PageAsc` / `PageDesc` (take up to the
found index) is the filter keeping elements strictly before the boundary
value, a zero boundary value imposing no bound. -/
theorem find_take_eq {T : Type} [DecidableEq T] [Zeroed T]
    (R : T → T → Prop) [DecidableRel R]
    (hA : ∀ a b : T, R a b → ¬ R b a) (b : Boundary T) (xs : List T)
    (hs : List.Pairwise R xs) (hb : zero b.Value = false → b.Value ∈ xs) :
    (match b.Find xs with
     | some i => xs.take i
     | none => xs) =
      xs.filter (fun x => (zero b.Value || decide (R x b.Value))) := by
  by_cases hz : zero b.Value
  · simp [Boundary.Find, hz]
  · rw [show b.Find xs = xs.findIdx? (fun x => x = b.Value) by
      simp [Boundary.Find, hz]]
    rw [findIdx_take_eq_filter R hA xs b.Value hs (hb (by simpa using hz))]
    refine List.filter_congr ?_
    intro x _
    simp [hz]

/-- The guarded in-place reversal equals the spec-side conditional
reversal. -/
theorem reverse_step {T : Type} (b : Bool) (xs : List T) :
    (if b = true ∧ 1 < xs.length then reverseLoop xs else xs) =
      reverseIfSpec b xs := by
  cases b with
  | false => simp [reverseIfSpec]
  | true =>
    by_cases hl : 1 < xs.length
    · simp [reverseIfSpec, reverseLoop, hl]
    · have hself : xs.reverse = xs := by
        rcases xs with _ | ⟨a, _ | ⟨c, t⟩⟩
        · rfl
        · rfl
        · simp at hl
      simp [reverseIfSpec, reverseLoop, hl, hself]

/-- The guarded limit reslice equals the spec-side truncation. -/
theorem trunc_step {T : Type} (L : Int) (xs : List T) :
    (if 0 < L ∧ L < (xs.length : Int) then xs.take L.toNat else xs) =
      truncSpec L xs := by
  unfold truncSpec
  by_cases h1 : 0 < L
  · by_cases h2 : L < (xs.length : Int)
    · simp [h1, h2]
    · have hle : xs.length ≤ L.toNat := by omega
      simp [h1, h2, List.take_of_length_le hle]
  · simp [h1]

/-- C4: for a strictly ascending input (for `PageAsc`) and a strictly
descending input (for `PageDesc`) in which each non-zero boundary value
occurs, with the minimum below the maximum when both are set, the paging
functions return the sub-slice strictly between the boundary values
(exclusive, located by exact match; a zero boundary value imposes no bound),
reversed when the page's requested order disagrees with the input's natural
order, then truncated to at most `Limit` elements when `Limit` is
positive. -/
theorem c4_page_window :
    ∀ (T : Type) (_ : LinearOrder T) (_ : Zeroed T) (p : Page T) (xsA xsD : List T),
      List.Pairwise (· < ·) xsA →
      List.Pairwise (· > ·) xsD →
      (zero p.Min.Value = false → p.Min.Value ∈ xsA) →
      (zero p.Max.Value = false → p.Max.Value ∈ xsA) →
      (zero p.Min.Value = false → p.Min.Value ∈ xsD) →
      (zero p.Max.Value = false → p.Max.Value ∈ xsD) →
      (zero p.Min.Value = false → zero p.Max.Value = false →
        p.Min.Value < p.Max.Value) →
      Page.PageAsc p xsA = pageAscSpec p xsA ∧
      Page.PageDesc p xsD = pageDescSpec p xsD := by
  intro T _inst _instz p xsA xsD hsA hsD hMinA hMaxA hMinD hMaxD hlt
  have hAlt : ∀ a b : T, a < b → ¬ b < a := fun a b h => lt_asymm h
  have hAgt : ∀ a b : T, a > b → ¬ b > a := fun a b h => lt_asymm h
  constructor
  · -- PageAsc
    have h1 := find_drop_eq (· < ·) hAlt p.Min xsA hsA hMinA
    have hs1 : List.Pairwise (· < ·)
        (xsA.filter (fun x => (zero p.Min.Value || decide (p.Min.Value < x)))) :=
      hsA.filter _
    have hb2 : zero p.Max.Value = false →
        p.Max.Value ∈ xsA.filter (fun x => (zero p.Min.Value || decide (p.Min.Value < x))) := by
      intro hzmax
      refine List.mem_filter.mpr ⟨hMaxA hzmax, ?_⟩
      by_cases hzmin : zero p.Min.Value
      · simp [hzmin]
      · simp [hzmin, hlt (by simpa using hzmin) hzmax]
    have h2 := find_take_eq (· < ·) hAlt p.Max _ hs1 hb2
    simp only [Page.PageAsc]
    rw [h1, h2, reverse_step, trunc_step]
    unfold pageAscSpec betweenSpec
    rw [List.filter_filter]
    congr 2
    refine List.filter_congr ?_
    intro x _
    exact Bool.and_comm _ _
  · -- PageDesc
    have h1 := find_drop_eq (· > ·) hAgt p.Max xsD hsD hMaxD
    have hs1 : List.Pairwise (· > ·)
        (xsD.filter (fun x => (zero p.Max.Value || decide (p.Max.Value > x)))) :=
      hsD.filter _
    have hb2 : zero p.Min.Value = false →
        p.Min.Value ∈ xsD.filter (fun x => (zero p.Max.Value || decide (p.Max.Value > x))) := by
      intro hzmin
      refine List.mem_filter.mpr ⟨hMinD hzmin, ?_⟩
      by_cases hzmax : zero p.Max.Value
      · simp [hzmax]
      · simp [hzmax, hlt hzmin (by simpa using hzmax)]
    have h2 := find_take_eq (· > ·) hAgt p.Min _ hs1 hb2
    simp only [Page.PageDesc]
    rw [h1, h2, reverse_step, trunc_step]
    unfold pageDescSpec betweenSpec
    rw [List.filter_filter]

/-- The first exact match of `v` in `pre ++ v :: rest` sits at index
`pre.length` when `v` does not occur in `pre`. -/
theorem findIdx?_append_self {T : Type} [DecidableEq T] (v : T) :
    ∀ (pre rest : List T), v ∉ pre →
    (pre ++ v :: rest).findIdx? (fun x => x = v) = some pre.length := by
  intro pre
  induction pre with
  | nil =>
    intro rest _
    simp
  | cons p ps ih =>
    intro rest hnot
    have hp : ¬ (p = v) := by
      intro h
      exact hnot (by simp [h])
    simp only [List.cons_append, List.findIdx?_cons, decide_eq_true_eq, if_neg hp,
      List.findIdx?_succ]
    rw [ih rest (fun h => hnot (List.mem_cons_of_mem _ h))]
    simp

/-- `PageAsc` for a continuation page carrying only a minimum boundary `v`
(as produced by `Prev`) returns the next `Limit` elements after `v`. -/
theorem pageAsc_minNew {T : Type} [DecidableEq T] [Zeroed T] (L : Int) (hL : 0 < L)
    (v : T) (pre rest : List T) (hzv : zero v = false) (hnotin : v ∉ pre) :
    Page.PageAsc
        { Min := { Name := "", Value := v, Order := Order.zero },
          Max := { Name := "", Value := (Zeroed.zeroVal : T), Order := Order.zero },
          Limit := L }
        (pre ++ v :: rest) = rest.take L.toNat := by
  have hfind :
      Boundary.Find { Name := "", Value := v, Order := Order.zero }
        (pre ++ v :: rest) = some pre.length := by
    simp only [Boundary.Find, hzv, Bool.false_eq_true, if_false]
    exact findIdx?_append_self v pre rest hnotin
  have hdrop : (pre ++ v :: rest).drop (pre.length + 1) = rest := by
    have heq : pre ++ v :: rest = (pre ++ [v]) ++ rest := by simp
    have hlen : (pre ++ [v]).length = pre.length + 1 := by simp
    rw [heq, ← hlen, List.drop_left]
  have hmax :
      Boundary.Find { Name := "", Value := (Zeroed.zeroVal : T), Order := Order.zero }
        rest = none := by
    simp [Boundary.Find, zero]
  simp only [Page.PageAsc, Page.order, Boundary.New, Boundary.zeroed,
    Order.Descending, reverseLoop, hfind, hdrop, hmax]
  by_cases hlim : L < (rest.length : Int)
  · simp [hL, hlim]
  · have hle : rest.length ≤ L.toNat := by omega
    simp [hL, hlim, List.take_of_length_le hle]

/-- `PageAsc` for a page with no boundaries returns the first `Limit`
elements. -/
theorem pageAsc_nobound {T : Type} [DecidableEq T] [Zeroed T] (L : Int) (hL : 0 < L)
    (xs : List T) :
    Page.PageAsc (noBoundaryPage T L) xs = xs.take L.toNat := by
  have hmin :
      Boundary.Find { Name := "", Value := (Zeroed.zeroVal : T), Order := Order.zero }
        xs = none := by
    simp [Boundary.Find, zero]
  simp only [noBoundaryPage, Page.PageAsc, Page.order, Boundary.zeroed,
    Order.Descending, reverseLoop, hmin]
  by_cases hlim : L < (xs.length : Int)
  · simp [hL, hlim]
  · have hle : xs.length ≤ L.toNat := by omega
    simp [hL, hlim, List.take_of_length_le hle]

/-- The `Prev`-continuation paging loop started just after `v` in
`pre ++ v :: rest` enumerates exactly `rest`, provided the keys are unique
and non-zero and the fuel covers the remaining length. -/
theorem enumPrev_min {T : Type} [DecidableEq T] [Zeroed T] :
    ∀ (fuel : Nat) (L : Int) (v : T) (pre rest : List T),
      0 < L →
      (∀ x ∈ pre ++ v :: rest, zero x = false) →
      (pre ++ v :: rest).Nodup →
      rest.length ≤ fuel →
      enumPrev fuel
        (some { Min := { Name := "", Value := v, Order := Order.zero },
                Max := { Name := "", Value := (Zeroed.zeroVal : T), Order := Order.zero },
                Limit := L })
        (pre ++ v :: rest) = rest := by
  intro fuel
  induction fuel with
  | zero =>
    intro L v pre rest hL hz hnd hlen
    have hrest : rest = [] := List.length_eq_zero.mp (Nat.le_zero.mp hlen)
    subst hrest
    rfl
  | succ fuel ih =>
    intro L v pre rest hL hz hnd hlen
    have hzv : zero v = false := hz v (by simp)
    have hvpre : v ∉ pre := fun hmem =>
      List.disjoint_of_nodup_append hnd hmem (by simp)
    have hpa := pageAsc_minNew L hL v pre rest hzv hvpre
    simp only [enumPrev, hpa]
    cases rest with
    | nil => simp
    | cons h t =>
      obtain ⟨k, hk⟩ : ∃ k, L.toNat = k + 1 := ⟨L.toNat - 1, by omega⟩
      rw [hk, List.take_succ_cons]
      have hne : (h :: t.take k) ≠ [] := List.cons_ne_nil _ _
      rw [List.getLast?_eq_getLast _ hne]
      have hlast_mem_r : (h :: t.take k).getLast hne ∈ h :: t.take k :=
        List.getLast_mem hne
      have htake : h :: t.take k = (h :: t).take (k + 1) :=
        List.take_succ_cons.symm
      have hsub : h :: t.take k ⊆ h :: t := by
        rw [htake]
        exact List.take_subset _ _
      have hlast_mem_rest : (h :: t.take k).getLast hne ∈ h :: t :=
        hsub hlast_mem_r
      have hzlast : zero ((h :: t.take k).getLast hne) = false := by
        refine hz _ ?_
        simp only [List.mem_append, List.mem_cons]
        right
        right
        simpa using hlast_mem_rest
      simp only [Page.Prev, hzlast, Bool.false_eq_true, if_false, Boundary.New,
        Boundary.zeroed]
      have hsplit : h :: t = (h :: t.take k) ++ (h :: t).drop (k + 1) := by
        rw [htake]
        exact (List.take_append_drop (k + 1) (h :: t)).symm
      have hqlast :
          h :: t.take k =
            (h :: t.take k).dropLast ++ [(h :: t.take k).getLast hne] :=
        (List.dropLast_append_getLast hne).symm
      have hxs :
          pre ++ v :: h :: t =
            (pre ++ v :: (h :: t.take k).dropLast) ++
              ((h :: t.take k).getLast hne) :: (h :: t).drop (k + 1) := by
        conv_lhs => rw [hsplit, hqlast]
        simp
      have hz2 : ∀ x ∈ (pre ++ v :: (h :: t.take k).dropLast) ++
          ((h :: t.take k).getLast hne) :: (h :: t).drop (k + 1), zero x = false := by
        rw [← hxs]
        exact hz
      have hnd2 : ((pre ++ v :: (h :: t.take k).dropLast) ++
          ((h :: t.take k).getLast hne) :: (h :: t).drop (k + 1)).Nodup := by
        rw [← hxs]
        exact hnd
      have hlen2 : ((h :: t).drop (k + 1)).length ≤ fuel := by
        simp only [List.length_drop, List.length_cons]
        simp only [List.length_cons] at hlen
        omega
      have hIH := ih L ((h :: t.take k).getLast hne)
        (pre ++ v :: (h :: t.take k).dropLast) ((h :: t).drop (k + 1))
        hL hz2 hnd2 hlen2
      rw [← hxs] at hIH
      rw [hIH]
      conv_rhs => rw [hsplit]

/-- C3 (amended): for every sorted ascending sequence of unique non-zero
keys and every positive `Limit`, starting from a `Page` with that limit and
no boundaries, repeatedly calling `PageAsc` on the full sequence and
deriving the continuation page via `Prev` applied to the last element of the
returned page enumerates all keys exactly once, in order, with no gaps and
no repeats; the loop stops on the first empty page (`Prev` returns `nil`
only for a zero candidate boundary value, which cannot arise from the
non-zero keys, so any fuel of at least the sequence's length suffices). -/
theorem c3_amended_roundtrip :
    ∀ (T : Type) (_de : DecidableEq T) (_li : LinearOrder T) (_z : Zeroed T)
      (xs : List T) (L : Int) (fuel : Nat),
      List.Pairwise (· < ·) xs →
      (∀ x ∈ xs, zero x = false) →
      0 < L →
      xs.length ≤ fuel →
      enumPrev fuel (some (noBoundaryPage T L)) xs = xs := by
  intro T _de _li _z xs L fuel hsort hznz hL hlen
  have hnd : xs.Nodup := List.Pairwise.imp (fun h => ne_of_lt h) hsort
  cases fuel with
  | zero =>
    have hxs : xs = [] := List.length_eq_zero.mp (Nat.le_zero.mp hlen)
    subst hxs
    rfl
  | succ fuel =>
    have hpa := pageAsc_nobound L hL xs
    simp only [enumPrev, hpa]
    cases xs with
    | nil => simp
    | cons h t =>
      obtain ⟨k, hk⟩ : ∃ k, L.toNat = k + 1 := ⟨L.toNat - 1, by omega⟩
      rw [hk, List.take_succ_cons]
      have hne : (h :: t.take k) ≠ [] := List.cons_ne_nil _ _
      rw [List.getLast?_eq_getLast _ hne]
      have hlast_mem_r : (h :: t.take k).getLast hne ∈ h :: t.take k :=
        List.getLast_mem hne
      have htake : h :: t.take k = (h :: t).take (k + 1) :=
        List.take_succ_cons.symm
      have hsub : h :: t.take k ⊆ h :: t := by
        rw [htake]
        exact List.take_subset _ _
      have hlast_mem_rest : (h :: t.take k).getLast hne ∈ h :: t :=
        hsub hlast_mem_r
      have hzlast : zero ((h :: t.take k).getLast hne) = false :=
        hznz _ hlast_mem_rest
      simp only [Page.Prev, hzlast, Bool.false_eq_true, if_false, noBoundaryPage,
        Boundary.New, Boundary.zeroed]
      have hsplit : h :: t = h :: t.take k ++ (h :: t).drop (k + 1) := by
        rw [htake]
        exact (List.take_append_drop (k + 1) (h :: t)).symm
      have hqlast :
          h :: t.take k =
            (h :: t.take k).dropLast ++ [(h :: t.take k).getLast hne] :=
        (List.dropLast_append_getLast hne).symm
      have hxs :
          h :: t =
            (h :: t.take k).dropLast ++
              ((h :: t.take k).getLast hne) :: (h :: t).drop (k + 1) := by
        conv_lhs => rw [hsplit, hqlast]
        simp
      have hz2 : ∀ x ∈ (h :: t.take k).dropLast ++
          ((h :: t.take k).getLast hne) :: (h :: t).drop (k + 1), zero x = false := by
        rw [← hxs]
        exact hznz
      have hnd2 : ((h :: t.take k).dropLast ++
          ((h :: t.take k).getLast hne) :: (h :: t).drop (k + 1)).Nodup := by
        rw [← hxs]
        exact hnd
      have hlen2 : ((h :: t).drop (k + 1)).length ≤ fuel := by
        simp only [List.length_drop, List.length_cons]
        simp only [List.length_cons] at hlen
        omega
      have hIH := enumPrev_min fuel L ((h :: t.take k).getLast hne)
        ((h :: t.take k).dropLast) ((h :: t).drop (k + 1))
        hL hz2 hnd2 hlen2
      rw [← hxs] at hIH
      rw [hIH]
      conv_rhs => rw [hsplit]

/-- C3 counterexample: deriving the continuation page via `Next` applied to
the last returned element, as the claim states, fails on the sorted unique
sequence [1, 2] with Limit 1: the enumeration yields only [1], so key 2 —
a member of the input — is never enumerated (a gap), refuting the claimed
complete exactly-once enumeration. -/
theorem c3_counterexample :
    Paging.enumNext 5 (some (noBoundaryPage Nat 1)) [1, 2] = [1] ∧
    2 ∈ [1, 2] ∧
    2 ∉ Paging.enumNext 5 (some (noBoundaryPage Nat 1)) [1, 2] ∧
    List.Pairwise (fun a b : Nat => a < b) [1, 2] ∧
    (∀ x ∈ [1, 2], zero (x : Nat) = false) ∧
    (0 : Int) < 1 := by
  refine ⟨by decide, by decide, by decide, ?_, by decide, by decide⟩
  decide

/-- C3 witness: the `Prev`-continuation loop with limit 2 enumerates the
concrete sequence [1, 2, 3] exactly. -/
theorem c3_amended_witness :
    Paging.enumPrev 3 (some (noBoundaryPage Nat 2)) [1, 2, 3] = [1, 2, 3] :=
  c3_amended_roundtrip Nat inferInstance inferInstance inferInstance [1, 2, 3] 2 3
    (by decide) (by decide) (by decide) (by decide)

/-- C4 witness: a concrete descending-order page with boundaries 1 and 4
and limit 2 over [1, 2, 3, 4] (and its descending mirror) matches the
spec-side window-reverse-truncate description. -/
theorem c4_witness :
    Page.PageAsc
        { Min := { Name := "since_id", Value := 1, Order := Order.descending },
          Max := { Name := "max_id", Value := 4, Order := Order.zero },
          Limit := 2 } [1, 2, 3, 4] = [3, 2] ∧
    Page.PageAsc
        { Min := { Name := "since_id", Value := 1, Order := Order.descending },
          Max := { Name := "max_id", Value := 4, Order := Order.zero },
          Limit := 2 } [1, 2, 3, 4] =
      pageAscSpec
        { Min := { Name := "since_id", Value := 1, Order := Order.descending },
          Max := { Name := "max_id", Value := 4, Order := Order.zero },
          Limit := 2 } [1, 2, 3, 4] ∧
    Page.PageDesc
        { Min := { Name := "since_id", Value := 1, Order := Order.descending },
          Max := { Name := "max_id", Value := 4, Order := Order.zero },
          Limit := 2 } [4, 3, 2, 1] =
      pageDescSpec
        { Min := { Name := "since_id", Value := 1, Order := Order.descending },
          Max := { Name := "max_id", Value := 4, Order := Order.zero },
          Limit := 2 } [4, 3, 2, 1] := by
  have h := c4_page_window Nat inferInstance inferInstance
    { Min := { Name := "since_id", Value := 1, Order := Order.descending },
      Max := { Name := "max_id", Value := 4, Order := Order.zero },
      Limit := 2 } [1, 2, 3, 4] [4, 3, 2, 1]
    (by decide) (by decide) (by decide) (by decide) (by decide) (by decide)
    (by decide)
  exact ⟨by decide, h.1, h.2⟩
